import Mathlib

/-!
# Task store of the to-do backend

A shallow embedding of the task routes (`src/routes/tasks.js`) over the `tasks`
table declared in `src/database.js`.

* The database is a value of type `Db`: the rows of `tasks` in rowid order and the
  AUTOINCREMENT counter. Each prepared statement of the routes is a function on `Db`.
* Each route handler is a function from the database, the authenticated user id
  (`req.user.id`, set by `src/middleware/auth.js`) and the request to the new database
  and the HTTP response.
* `CURRENT_TIMESTAMP` is an input of the insert (`now`).
* The helper `run` of `src/database.js` saves the database before it reads
  `last_insert_rowid()`; the value it returns is `lastInsertRowid` below.
* Request bodies carry JSON strings, booleans and `null`; a missing property reads
  `undefined`. JSON numbers, arrays and objects in scalar positions are outside the model.
-/

namespace TaskStore

/-! ## JavaScript values -/

/-- JavaScript values found in a scalar property of a request body or read from a column. -/
inductive JsVal where
  | undefined
  | null
  | bool (b : Bool)
  | str (s : String)
  deriving DecidableEq, Repr

/-- JavaScript truthiness: `undefined`, `null`, `false` and `""` are falsy. -/
def JsVal.truthy : JsVal → Bool
  | .undefined => false
  | .null => false
  | .bool b => b
  | .str s => decide (s ≠ "")

/-- The JavaScript expression `a || b`. -/
def JsVal.or (a b : JsVal) : JsVal :=
  if a.truthy then a else b

/-- The `deadline` property of a request body: missing, `null`, or an object whose
    properties `day`, `month`, `year` read `undefined` when missing. -/
inductive JsDeadline where
  | undefined
  | null
  | obj (day month year : JsVal)
  deriving DecidableEq, Repr

/-- The JavaScript expression `deadline?.day`. -/
def JsDeadline.day : JsDeadline → JsVal
  | .obj d _ _ => d
  | _ => .undefined

/-- The JavaScript expression `deadline?.month`. -/
def JsDeadline.month : JsDeadline → JsVal
  | .obj _ m _ => m
  | _ => .undefined

/-- The JavaScript expression `deadline?.year`. -/
def JsDeadline.year : JsDeadline → JsVal
  | .obj _ _ y => y
  | _ => .undefined

/-- ECMAScript `WhiteSpace` and `LineTerminator` code points, the characters that
    `String.prototype.trim` strips. -/
def isJsWhiteSpace (c : Char) : Bool :=
  c.toNat ∈ [0x09, 0x0A, 0x0B, 0x0C, 0x0D, 0x20, 0xA0, 0x1680, 0x2000, 0x2001, 0x2002,
    0x2003, 0x2004, 0x2005, 0x2006, 0x2007, 0x2008, 0x2009, 0x200A, 0x2028, 0x2029,
    0x202F, 0x205F, 0x3000, 0xFEFF]

/-- The effect of `String.prototype.trim` on the characters of a string. -/
def trimChars (l : List Char) : List Char :=
  ((l.dropWhile isJsWhiteSpace).reverse.dropWhile isJsWhiteSpace).reverse

/-- The method `String.prototype.trim`. -/
def jsTrim (s : String) : String :=
  String.mk (trimChars s.data)

/-- The method call `text.trim()`: `none` is the `TypeError` thrown when `text` is not a
    string (`true.trim is not a function`, or a property read on `undefined` or `null`). -/
def JsVal.trim : JsVal → Option String
  | .str s => some (jsTrim s)
  | _ => none

/-! ## The request body -/

/-- A request body as the handlers destructure it:
    `const { text, completed, priority, deadline, formattedDeadline, view } = req.body`.
    `rest` holds every other property the client sent (for instance `user_id`). -/
structure Body where
  text : JsVal
  completed : JsVal
  priority : JsVal
  deadline : JsDeadline
  formattedDeadline : JsVal
  view : JsVal
  rest : List (String × JsVal)
  deriving Repr

/-- A body that supplies `text` only. -/
def Body.ofText (text : JsVal) : Body :=
  ⟨text, .undefined, .undefined, .undefined, .undefined, .undefined, []⟩

/-! ## The `tasks` table -/

/-- A row of table `tasks` (`src/database.js`). `text` is `TEXT NOT NULL`, `completed`
    is `INTEGER DEFAULT 0`, the other data columns are nullable `TEXT`. -/
structure Row where
  id : Int
  user_id : Int
  text : String
  completed : Int
  priority : Option String
  deadline_day : Option String
  deadline_month : Option String
  deadline_year : Option String
  formatted_deadline : Option String
  view : Option String
  created_at : String
  deriving DecidableEq, Repr

/-- The database: the rows of `tasks` in rowid order and the `sqlite_sequence` counter
    kept for `id INTEGER PRIMARY KEY AUTOINCREMENT`. -/
structure Db where
  tasks : List Row
  seq : Int
  deriving DecidableEq, Repr

/-- The database right after `initDatabase` created the tables. -/
def emptyDb : Db := ⟨[], 0⟩

/-- The largest rowid in the table (0 when the table is empty). -/
def maxRowid (rows : List Row) : Int :=
  rows.foldr (fun r m => max r.id m) 0

/-- The rowid AUTOINCREMENT gives the next inserted row: one more than the largest rowid
    that the table holds or ever held. -/
def nextRowid (db : Db) : Int :=
  max (maxRowid db.tasks) db.seq + 1

/-- What a nullable `TEXT` column holds once sql.js has bound a parameter: a string is
    stored as is, a boolean is bound as the number 1 or 0 and stored as its text, `null`
    is SQL `NULL`. `none`: sql.js throws on `undefined`. -/
def bindText : JsVal → Option (Option String)
  | .undefined => none
  | .null => some none
  | .bool b => some (some (if b then "1" else "0"))
  | .str s => some (some s)

/-- The JavaScript value `getAsObject` gives for a nullable `TEXT` column. -/
def colVal : Option String → JsVal
  | none => .null
  | some s => .str s

/-- The statement `SELECT * FROM tasks WHERE id = ? AND user_id = ?` read with `.get`. -/
def selectByIdAndUser (db : Db) (id user_id : Int) : Option Row :=
  db.tasks.find? (fun r => decide (r.id = id) && decide (r.user_id = user_id))

/-- The statement `SELECT * FROM tasks WHERE id = ?` read with `.get`. -/
def selectById (db : Db) (id : Int) : Option Row :=
  db.tasks.find? (fun r => decide (r.id = id))

/-- The `lastInsertRowid` that `run` of `src/database.js` returns. `run` executes the
    statement, calls `saveDatabase()` and only then reads `SELECT last_insert_rowid()`.
    `saveDatabase()` exports the database, which closes the connection and opens a new
    one; the new connection has inserted no row, so the value read is 0 (and `0 || 0`
    is 0). -/
def lastInsertRowid : Int := 0

/-- The statement `INSERT INTO tasks (user_id, text, priority, deadline_day, deadline_month,
    deadline_year, formatted_deadline, view) VALUES (?, ?, ?, ?, ?, ?, ?, ?)` run with
    `.run`; the result is the new database and the `lastInsertRowid` that `run` returns.
    `completed` and `created_at` take their column defaults. `none`: the statement
    throws (a parameter sql.js cannot bind, or `NULL` for the `NOT NULL` column
    `text`). -/
def insertTask (db : Db) (now : String) (user_id : Int)
    (text priority day month year formatted view : JsVal) : Option (Db × Int) :=
  match bindText text, bindText priority, bindText day, bindText month, bindText year,
      bindText formatted, bindText view with
  | some (some t), some p, some d, some m, some y, some f, some v =>
    let id := nextRowid db
    some (⟨db.tasks ++ [⟨id, user_id, t, 0, p, d, m, y, f, v, now⟩], id⟩, lastInsertRowid)
  | _, _, _, _, _, _, _ => none

/-- The assignment of `UPDATE tasks SET text = ?, completed = ?, priority = ?,
    deadline_day = ?, deadline_month = ?, deadline_year = ?, formatted_deadline = ?,
    view = ?` to one row. -/
def setColumns (r : Row) (t : String) (c : Int) (p d m y f v : Option String) : Row :=
  ⟨r.id, r.user_id, t, c, p, d, m, y, f, v, r.created_at⟩

/-- The `UPDATE tasks SET ... WHERE id = ? AND user_id = ?` statement run with `.run`.
    `none`: the statement throws (a parameter sql.js cannot bind, or `NULL` assigned to
    the `NOT NULL` column `text` of a matching row). -/
def updateTask (db : Db) (text : JsVal) (completed : Int)
    (priority day month year formatted view : JsVal) (id user_id : Int) : Option Db :=
  match bindText text, bindText priority, bindText day, bindText month, bindText year,
      bindText formatted, bindText view with
  | some t, some p, some d, some m, some y, some f, some v =>
    match t with
    | some t =>
      some ⟨db.tasks.map (fun r =>
        if r.id = id ∧ r.user_id = user_id then setColumns r t completed p d m y f v else r),
        db.seq⟩
    | none =>
      if db.tasks.any (fun r => decide (r.id = id) && decide (r.user_id = user_id)) then none
      else some db
  | _, _, _, _, _, _, _ => none

/-- The statement `DELETE FROM tasks WHERE id = ? AND user_id = ?` run with `.run`. -/
def deleteWhere (db : Db) (id user_id : Int) : Db :=
  ⟨db.tasks.filter (fun r => !(decide (r.id = id) && decide (r.user_id = user_id))), db.seq⟩

/-- The sort relation of `ORDER BY created_at DESC`: `a` may stand before `b`.
    `created_at` holds `CURRENT_TIMESTAMP` texts, which SQLite compares byte by byte. -/
def newerFirst (a b : Row) : Prop :=
  b.created_at.data ≤ a.created_at.data

instance : DecidableRel newerFirst :=
  fun a b => inferInstanceAs (Decidable (b.created_at.data ≤ a.created_at.data))

/-- The rows `SELECT ... FROM tasks WHERE user_id = ? ORDER BY created_at DESC` visits,
    in result order. The table is scanned in rowid order and sorted; rows with equal
    `created_at` keep their scan order, as they do in SQLite's sorter. -/
def selectForUser (db : Db) (user_id : Int) : List Row :=
  (db.tasks.filter (fun r => decide (r.user_id = user_id))).insertionSort newerFirst

/-- A result row of the list query: the selected columns, `created_at as date`. -/
structure ListedRow where
  id : Int
  text : String
  completed : Int
  priority : Option String
  deadline_day : Option String
  deadline_month : Option String
  deadline_year : Option String
  formatted_deadline : Option String
  view : Option String
  date : String
  deriving DecidableEq, Repr

/-- The column list of the list query. -/
def listedColumns (r : Row) : ListedRow :=
  ⟨r.id, r.text, r.completed, r.priority, r.deadline_day, r.deadline_month,
    r.deadline_year, r.formatted_deadline, r.view, r.created_at⟩

/-! ## Responses -/

/-- The `deadline` object of a task in a response. -/
structure ApiDeadline where
  day : JsVal
  month : JsVal
  year : JsVal
  deriving DecidableEq, Repr

/-- A task in a response. -/
structure ApiTask where
  id : Int
  text : JsVal
  completed : Bool
  priority : JsVal
  deadline : ApiDeadline
  formattedDeadline : JsVal
  view : JsVal
  date : JsVal
  deriving DecidableEq, Repr

/-- The response of a handler: the status code and the JSON body. -/
inductive Response where
  | tasks (ts : List ApiTask)
  | task (status : Nat) (message : String) (t : ApiTask)
  | message (status : Nat) (message : String)
  | error (status : Nat) (error : String)
  deriving DecidableEq, Repr

/-- The object built by `tasks.map(task => ...)` in `router.get('/')`. -/
def formatListed (task : ListedRow) : ApiTask :=
  { id := task.id
    text := .str task.text
    completed := decide (task.completed = 1)
    priority := colVal task.priority
    deadline :=
      { day := (colVal task.deadline_day).or (.str "")
        month := (colVal task.deadline_month).or (.str "")
        year := (colVal task.deadline_year).or (.str "") }
    formattedDeadline := colVal task.formatted_deadline
    view := colVal task.view
    date := .str task.date }

/-- The `task` object of the responses of `router.post('/')` and `router.put('/:id')`. -/
def formatTask (task : Row) : ApiTask :=
  { id := task.id
    text := .str task.text
    completed := decide (task.completed = 1)
    priority := colVal task.priority
    deadline :=
      { day := (colVal task.deadline_day).or (.str "")
        month := (colVal task.deadline_month).or (.str "")
        year := (colVal task.deadline_year).or (.str "") }
    formattedDeadline := colVal task.formatted_deadline
    view := colVal task.view
    date := .str task.created_at }

/-! ## The route handlers -/

/-- The handler `router.get('/')`: the tasks of the authenticated user. -/
def getTasks (db : Db) (userId : Int) : Response :=
  .tasks (((selectForUser db userId).map listedColumns).map formatListed)

/-- The handler `router.post('/')`: create a task. -/
def postTask (db : Db) (now : String) (userId : Int) (body : Body) : Db × Response :=
  if !body.text.truthy then
    (db, .error 400 "Task text is required")
  else
    match body.text.trim with
    | none => (db, .error 500 "Failed to create task")
    | some trimmed =>
      if !(JsVal.str trimmed).truthy then
        (db, .error 400 "Task text is required")
      else
        match insertTask db now userId (.str trimmed)
            (body.priority.or (.str "none"))
            (body.deadline.day.or .null)
            (body.deadline.month.or .null)
            (body.deadline.year.or .null)
            (body.formattedDeadline.or .null)
            (body.view.or (.str "inbox")) with
        | none => (db, .error 500 "Failed to create task")
        | some (db1, rowid) =>
          match selectById db1 rowid with
          | none => (db1, .error 500 "Failed to create task")
          | some task => (db1, .task 201 "Task created successfully" (formatTask task))

/-- The handler `router.put('/:id')`: update a task. `id` is `parseInt(req.params.id)`. -/
def putTask (db : Db) (userId id : Int) (body : Body) : Db × Response :=
  match selectByIdAndUser db id userId with
  | none => (db, .error 404 "Task not found")
  | some existingTask =>
    match updateTask db
        (if body.text ≠ .undefined then body.text else .str existingTask.text)
        (if body.completed ≠ .undefined then (if body.completed.truthy then 1 else 0)
          else existingTask.completed)
        (if body.priority ≠ .undefined then body.priority else colVal existingTask.priority)
        (if body.deadline.day ≠ .undefined then body.deadline.day
          else colVal existingTask.deadline_day)
        (if body.deadline.month ≠ .undefined then body.deadline.month
          else colVal existingTask.deadline_month)
        (if body.deadline.year ≠ .undefined then body.deadline.year
          else colVal existingTask.deadline_year)
        (if body.formattedDeadline ≠ .undefined then body.formattedDeadline
          else colVal existingTask.formatted_deadline)
        (if body.view ≠ .undefined then body.view else colVal existingTask.view)
        id userId with
    | none => (db, .error 500 "Failed to update task")
    | some db1 =>
      match selectById db1 id with
      | none => (db1, .error 500 "Failed to update task")
      | some task => (db1, .task 200 "Task updated successfully" (formatTask task))

/-- The handler `router.delete('/:id')`: delete a task. `id` is `parseInt(req.params.id)`. -/
def deleteTask (db : Db) (userId id : Int) : Db × Response :=
  match selectByIdAndUser db id userId with
  | none => (db, .error 404 "Task not found")
  | some _ => (deleteWhere db id userId, .message 200 "Task deleted successfully")

/-! ## Sequences of requests -/

/-- An authenticated request to the task routes. -/
inductive Request where
  | list (userId : Int)
  | create (now : String) (userId : Int) (body : Body)
  | update (userId id : Int) (body : Body)
  | delete (userId id : Int)

/-- The handler a request is routed to. -/
def handle (db : Db) : Request → Db × Response
  | .list userId => (db, getTasks db userId)
  | .create now userId body => postTask db now userId body
  | .update userId id body => putTask db userId id body
  | .delete userId id => deleteTask db userId id

/-- The database after a sequence of requests, handled one after the other. -/
def run (db : Db) : List Request → Db
  | [] => db
  | q :: qs => run (handle db q).1 qs

/-- The integrity the schema keeps: `id` is the primary key (rows stand in increasing
    rowid order, no id twice) and no id exceeds the AUTOINCREMENT counter. -/
def Db.WF (db : Db) : Prop :=
  db.tasks.Pairwise (fun a b => a.id < b.id) ∧ ∀ r ∈ db.tasks, r.id ≤ db.seq

instance (db : Db) : Decidable db.WF := by
  unfold Db.WF
  infer_instance

/-! ## Definitions used to state the lemmas and the claims -/

/-- The text a nullable `TEXT` column holds for a bindable parameter. -/
def textOf (v : JsVal) : Option String :=
  (bindText v).getD none

/-- The row a valid create inserts. -/
def newRow (db : Db) (now : String) (userId : Int) (s : String) (body : Body) : Row :=
  ⟨nextRowid db, userId, jsTrim s, 0,
    textOf (body.priority.or (.str "none")),
    textOf (body.deadline.day.or .null),
    textOf (body.deadline.month.or .null),
    textOf (body.deadline.year.or .null),
    textOf (body.formattedDeadline.or .null),
    textOf (body.view.or (.str "inbox")),
    now⟩

/-- The value `router.put('/:id')` binds to `completed`. -/
def mergedCompleted (T : Row) (body : Body) : Int :=
  if body.completed ≠ .undefined then (if body.completed.truthy then 1 else 0) else T.completed

/-- The row `router.put('/:id')` writes over the existing row `T` when `text` binds to `t`. -/
def mergedRow (T : Row) (body : Body) (t : String) : Row :=
  setColumns T t (mergedCompleted T body)
    (textOf (if body.priority ≠ .undefined then body.priority else colVal T.priority))
    (textOf (if body.deadline.day ≠ .undefined then body.deadline.day
      else colVal T.deadline_day))
    (textOf (if body.deadline.month ≠ .undefined then body.deadline.month
      else colVal T.deadline_month))
    (textOf (if body.deadline.year ≠ .undefined then body.deadline.year
      else colVal T.deadline_year))
    (textOf (if body.formattedDeadline ≠ .undefined then body.formattedDeadline
      else colVal T.formatted_deadline))
    (textOf (if body.view ≠ .undefined then body.view else colVal T.view))

/-- The rowids AUTOINCREMENT gives out from the empty table on are positive. -/
def Db.PositiveIds (db : Db) : Prop :=
  0 ≤ db.seq ∧ ∀ r ∈ db.tasks, 0 < r.id

/-- Rowid `i` was given out before and no row carries it. -/
def Retired (i : Int) (db : Db) : Prop :=
  i ≤ db.seq ∧ ∀ r ∈ db.tasks, r.id ≠ i

instance : IsTotal Row newerFirst :=
  ⟨fun a b => le_total b.created_at.data a.created_at.data⟩

instance : IsTrans Row newerFirst :=
  ⟨fun _ _ _ hab hbc => le_trans hbc hab⟩

/-- The create requests of one user, one for each creation time and body. -/
def createRequests (userId : Int) (cs : List (String × Body)) : List Request :=
  cs.map (fun c => .create c.1 userId c.2)

/-- How an update treats a nullable text column, in the words of the specification:
    kept when the property is omitted, overwritten when it is supplied (a string is
    stored as given, the empty string included; `null` clears the column; a boolean is
    stored as the text of 1 or 0). -/
def Overwrites (supplied : JsVal) (old new : Option String) : Prop :=
  (supplied = .undefined → new = old) ∧
  (∀ s, supplied = .str s → new = some s) ∧
  (supplied = .null → new = none) ∧
  (∀ b, supplied = .bool b → new = some (if b then "1" else "0"))

/-- How an update treats `text`: kept when omitted, overwritten when supplied. -/
def OverwritesText (supplied : JsVal) (old new : String) : Prop :=
  (supplied = .undefined → new = old) ∧
  (∀ s, supplied = .str s → new = s) ∧
  (∀ b, supplied = .bool b → new = (if b then "1" else "0"))

/-- How an update treats `completed`: kept when omitted, overwritten by 1 or 0 when
    supplied (`false` gives 0). -/
def OverwritesFlag (supplied : JsVal) (old new : Int) : Prop :=
  (supplied = .undefined → new = old) ∧
  (supplied = .bool true → new = 1) ∧
  (supplied = .bool false → new = 0) ∧
  (supplied ≠ .undefined → new = 0 ∨ new = 1)

/-- A response field that shows a nullable column with `null` turned into the empty
    string. -/
def SameOrEmpty (col : Option String) (v : JsVal) : Prop :=
  (∀ s, col = some s → v = .str s) ∧ (col = none → v = .str "")

/-- A response field that shows a nullable column with `null` preserved. -/
def SameOrNull (col : Option String) (v : JsVal) : Prop :=
  (∀ s, col = some s → v = .str s) ∧ (col = none → v = .null)

/-- The shape translation of a stored row, in the words of the specification. -/
def IsShapeOf (t : ApiTask) (r : Row) : Prop :=
  t.id = r.id ∧ t.text = .str r.text ∧
  (t.completed = true ↔ r.completed = 1) ∧
  SameOrNull r.priority t.priority ∧
  SameOrEmpty r.deadline_day t.deadline.day ∧
  SameOrEmpty r.deadline_month t.deadline.month ∧
  SameOrEmpty r.deadline_year t.deadline.year ∧
  SameOrNull r.formatted_deadline t.formattedDeadline ∧
  SameOrNull r.view t.view ∧
  t.date = .str r.created_at

/-- A task of user 1, completed, with priority, deadline and view set. -/
def sampleRow : Row :=
  ⟨1, 1, "Buy milk", 1, some "high", some "24", some "12", some "2024", some "24 Dec",
    some "today", "2024-01-01 00:00:00"⟩

/-- A table that holds `sampleRow` and a task of user 2. -/
def sampleDb : Db :=
  ⟨[sampleRow, ⟨2, 2, "Call Ann", 0, some "none", none, none, none, none, some "inbox",
    "2024-01-01 00:00:05"⟩], 2⟩

/-- An update body that sets `completed` to `false`, `priority` and `deadline.day` to
    the empty string and omits everything else. -/
def sampleUpdate : Body :=
  ⟨.undefined, .bool false, .str "", .obj (.str "") .undefined .undefined, .undefined,
    .undefined, []⟩

/-- A create body that also carries a user id chosen by the client. -/
def sampleCreate : Body :=
  ⟨.str " Pay rent ", .undefined, .str "high", .undefined, .undefined, .str "today",
    [("user_id", .str "2"), ("userId", .str "2")]⟩

/-! ## Lemmas on the table -/

theorem eq_of_mem_of_id_eq {l : List Row} (h : l.Pairwise (fun a b => a.id < b.id))
    {a b : Row} (ha : a ∈ l) (hb : b ∈ l) (hid : a.id = b.id) : a = b := by
  induction l with
  | nil => cases ha
  | cons x xs ih =>
    rw [List.pairwise_cons] at h
    rcases List.mem_cons.mp ha with rfl | ha1
    · rcases List.mem_cons.mp hb with rfl | hb1
      · rfl
      · have := h.1 b hb1
        omega
    · rcases List.mem_cons.mp hb with rfl | hb1
      · have := h.1 a ha1
        omega
      · exact ih h.2 ha1 hb1

theorem selectByIdAndUser_eq_none {db : Db} {id u : Int}
    (h : ∀ r ∈ db.tasks, r.id = id → r.user_id ≠ u) : selectByIdAndUser db id u = none := by
  unfold selectByIdAndUser
  rw [List.find?_eq_none]
  intro r hr
  have := h r hr
  simp only [Bool.and_eq_true, decide_eq_true_eq, not_and]
  exact this

theorem selectByIdAndUser_some {db : Db} {id u : Int} {r : Row}
    (h : selectByIdAndUser db id u = some r) : r ∈ db.tasks ∧ r.id = id ∧ r.user_id = u := by
  unfold selectByIdAndUser at h
  have h1 := List.find?_some h
  have h2 := List.mem_of_find?_eq_some h
  simp only [Bool.and_eq_true, decide_eq_true_eq] at h1
  exact ⟨h2, h1.1, h1.2⟩

theorem selectByIdAndUser_of_mem {db : Db} (hwf : db.WF) {T : Row} (hT : T ∈ db.tasks) :
    selectByIdAndUser db T.id T.user_id = some T := by
  cases hsel : selectByIdAndUser db T.id T.user_id with
  | none =>
    unfold selectByIdAndUser at hsel
    rw [List.find?_eq_none] at hsel
    have := hsel T hT
    simp at this
  | some r =>
    obtain ⟨hr, hid, _⟩ := selectByIdAndUser_some hsel
    rw [eq_of_mem_of_id_eq hwf.1 hr hT hid]

theorem selectByIdAndUser_other {db : Db} (hwf : db.WF) {T : Row} (hT : T ∈ db.tasks)
    {B : Int} (hB : B ≠ T.user_id) : selectByIdAndUser db T.id B = none := by
  apply selectByIdAndUser_eq_none
  intro r hr hid hu
  have := eq_of_mem_of_id_eq hwf.1 hr hT hid
  subst this
  exact hB hu.symm

theorem trimChars_eq_nil {l : List Char} (h : ∀ c ∈ l, isJsWhiteSpace c = true) :
    trimChars l = [] := by
  unfold trimChars
  have : l.dropWhile isJsWhiteSpace = [] := List.dropWhile_eq_nil_iff.mpr h
  rw [this]
  rfl

/-! ## Lemmas on the handlers -/

theorem bindText_eq_textOf {v : JsVal} (h : v ≠ .undefined) : bindText v = some (textOf v) := by
  cases v <;> simp [bindText, textOf] at h ⊢

theorem or_ne_undefined (x : JsVal) {d : JsVal} (hd : d ≠ .undefined) :
    x.or d ≠ .undefined := by
  unfold JsVal.or
  cases x <;> simp [JsVal.truthy, hd]
  all_goals split <;> simp_all

theorem mem_le_maxRowid {rows : List Row} {r : Row} (h : r ∈ rows) : r.id ≤ maxRowid rows := by
  induction rows with
  | nil => cases h
  | cons x xs ih =>
    simp only [maxRowid, List.foldr_cons]
    rcases List.mem_cons.mp h with rfl | h1
    · exact le_max_left _ _
    · exact le_trans (ih h1) (le_max_right _ _)

theorem mem_lt_nextRowid {db : Db} {r : Row} (h : r ∈ db.tasks) : r.id < nextRowid db := by
  have := mem_le_maxRowid h
  unfold nextRowid
  have := le_max_left (maxRowid db.tasks) db.seq
  omega

theorem seq_lt_nextRowid (db : Db) : db.seq < nextRowid db := by
  unfold nextRowid
  have := le_max_right (maxRowid db.tasks) db.seq
  omega

theorem postTask_valid (db : Db) (now : String) (userId : Int) (body : Body) (s : String)
    (hs : body.text = .str s) (hne : jsTrim s ≠ "") :
    postTask db now userId body =
      match selectById ⟨db.tasks ++ [newRow db now userId s body], nextRowid db⟩
          lastInsertRowid with
      | none => (⟨db.tasks ++ [newRow db now userId s body], nextRowid db⟩,
          .error 500 "Failed to create task")
      | some task => (⟨db.tasks ++ [newRow db now userId s body], nextRowid db⟩,
          .task 201 "Task created successfully" (formatTask task)) := by
  have hs0 : s ≠ "" := by
    intro h
    apply hne
    rw [h]
    rfl
  unfold postTask
  simp only [hs, JsVal.truthy, JsVal.trim, hs0, hne, ne_eq, not_false_eq_true, decide_True,
    Bool.not_true, Bool.false_eq_true, if_false]
  unfold insertTask
  rw [bindText_eq_textOf (or_ne_undefined _ (by simp)),
    bindText_eq_textOf (or_ne_undefined _ (by simp)),
    bindText_eq_textOf (or_ne_undefined _ (by simp)),
    bindText_eq_textOf (or_ne_undefined _ (by simp)),
    bindText_eq_textOf (or_ne_undefined _ (by simp)),
    bindText_eq_textOf (or_ne_undefined _ (by simp))]
  simp only [bindText]
  rfl

/-- The table after a valid create: the new row is appended under a fresh rowid. -/
theorem postTask_valid_db (db : Db) (now : String) (userId : Int) (body : Body) (s : String)
    (hs : body.text = .str s) (hne : jsTrim s ≠ "") :
    (postTask db now userId body).1 =
      ⟨db.tasks ++ [newRow db now userId s body], nextRowid db⟩ := by
  rw [postTask_valid db now userId body s hs hne]
  split <;> rfl

theorem nextRowid_pos {db : Db} (h : db.PositiveIds) : 0 < nextRowid db := by
  have := seq_lt_nextRowid db
  have := h.1
  omega

/-- The response to a valid create on a table with positive rowids: the select by
    `lastInsertRowid` finds no row, reading `task.id` throws and the handler answers 500,
    with the new row stored. -/
theorem postTask_valid_answers_500 (db : Db) (hpos : db.PositiveIds) (now : String)
    (userId : Int) (body : Body) (s : String)
    (hs : body.text = .str s) (hne : jsTrim s ≠ "") :
    postTask db now userId body =
      (⟨db.tasks ++ [newRow db now userId s body], nextRowid db⟩,
        .error 500 "Failed to create task") := by
  rw [postTask_valid db now userId body s hs hne]
  have hnone : selectById ⟨db.tasks ++ [newRow db now userId s body], nextRowid db⟩
      lastInsertRowid = none := by
    unfold selectById
    rw [List.find?_eq_none]
    intro r hr
    simp only [decide_eq_true_eq, lastInsertRowid]
    rcases List.mem_append.mp hr with h1 | h1
    · have := hpos.2 r h1
      omega
    · rw [List.mem_singleton] at h1
      have := nextRowid_pos hpos
      rw [h1]
      show ¬ nextRowid db = 0
      omega
  rw [hnone]

theorem postTask_invalid (db : Db) (now : String) (userId : Int) (body : Body)
    (h : ∀ s, body.text = .str s → jsTrim s = "") :
    ∃ status msg, postTask db now userId body = (db, .error status msg) := by
  unfold postTask
  by_cases ht : body.text.truthy = true
  · simp only [ht, Bool.not_true, Bool.false_eq_true, if_false]
    cases hb : body.text with
    | str s =>
      have := h s hb
      simp only [JsVal.trim, this]
      exact ⟨400, _, rfl⟩
    | undefined => exact ⟨500, _, rfl⟩
    | null => exact ⟨500, _, rfl⟩
    | bool b => exact ⟨500, _, rfl⟩
  · simp only [ht, Bool.not_false, if_true]
    exact ⟨400, _, rfl⟩

theorem postTask_cases (db : Db) (now : String) (userId : Int) (body : Body) :
    (∃ status msg, postTask db now userId body = (db, .error status msg)) ∨
    (∃ s, body.text = .str s ∧ jsTrim s ≠ "" ∧ (postTask db now userId body).1 =
      ⟨db.tasks ++ [newRow db now userId s body], nextRowid db⟩) := by
  by_cases h : ∀ s, body.text = .str s → jsTrim s = ""
  · exact Or.inl (postTask_invalid db now userId body h)
  · push_neg at h
    obtain ⟨s, hs, hne⟩ := h
    exact Or.inr ⟨s, hs, hne, postTask_valid_db db now userId body s hs hne⟩

theorem selectById_of_mem {db : Db} (hwf : db.WF) {T : Row} (hT : T ∈ db.tasks) :
    selectById db T.id = some T := by
  cases hsel : selectById db T.id with
  | none =>
    unfold selectById at hsel
    rw [List.find?_eq_none] at hsel
    have := hsel T hT
    simp at this
  | some r =>
    unfold selectById at hsel
    have h1 := List.find?_some hsel
    have h2 := List.mem_of_find?_eq_some hsel
    simp only [decide_eq_true_eq] at h1
    rw [eq_of_mem_of_id_eq hwf.1 h2 hT h1]

theorem selectById_map {db : Db} (hwf : db.WF) {T : Row} (hT : T ∈ db.tasks)
    (f : Row → Row) (hf : ∀ r, (f r).id = r.id) (seq : Int) :
    selectById ⟨db.tasks.map f, seq⟩ T.id = some (f T) := by
  have h := selectById_of_mem hwf hT
  unfold selectById at h ⊢
  rw [List.find?_map]
  have : ((fun r : Row => decide (r.id = T.id)) ∘ f) = (fun r : Row => decide (r.id = T.id)) := by
    funext r
    simp [hf r]
  rw [this, h]
  rfl

theorem ite_str_ne_undefined (v : JsVal) (s : String) :
    (if v ≠ .undefined then v else .str s) ≠ .undefined := by
  split <;> simp_all

theorem ite_colVal_ne_undefined (v : JsVal) (x : Option String) :
    (if v ≠ .undefined then v else colVal x) ≠ .undefined := by
  split
  · assumption
  · cases x <;> simp [colVal]

theorem map_update_eq {db : Db} (hwf : db.WF) {T : Row} (hT : T ∈ db.tasks) (g : Row → Row) :
    db.tasks.map (fun r => if r.id = T.id ∧ r.user_id = T.user_id then g r else r) =
    db.tasks.map (fun r => if r.id = T.id then g T else r) := by
  apply List.map_congr_left
  intro r hr
  by_cases hid : r.id = T.id
  · have := eq_of_mem_of_id_eq hwf.1 hr hT hid
    subst this
    simp
  · simp [hid]

theorem putTask_owner {db : Db} (hwf : db.WF) {T : Row} (hT : T ∈ db.tasks) (body : Body)
    (t : String)
    (ht : textOf (if body.text ≠ .undefined then body.text else .str T.text) = some t) :
    putTask db T.user_id T.id body =
      (⟨db.tasks.map (fun r => if r.id = T.id then mergedRow T body t else r), db.seq⟩,
        .task 200 "Task updated successfully" (formatTask (mergedRow T body t))) := by
  unfold putTask
  rw [selectByIdAndUser_of_mem hwf hT]
  simp only
  unfold updateTask
  rw [bindText_eq_textOf (ite_str_ne_undefined _ _),
    bindText_eq_textOf (ite_colVal_ne_undefined _ _),
    bindText_eq_textOf (ite_colVal_ne_undefined _ _),
    bindText_eq_textOf (ite_colVal_ne_undefined _ _),
    bindText_eq_textOf (ite_colVal_ne_undefined _ _),
    bindText_eq_textOf (ite_colVal_ne_undefined _ _),
    bindText_eq_textOf (ite_colVal_ne_undefined _ _), ht]
  simp only
  rw [map_update_eq hwf hT (fun r => setColumns r t _ _ _ _ _ _ _)]
  have hsel := selectById_map hwf hT (fun r => if r.id = T.id then mergedRow T body t else r)
    (by intro r; by_cases h : r.id = T.id <;> simp [h, mergedRow, setColumns]) db.seq
  simp only [if_true] at hsel
  unfold mergedRow mergedCompleted at hsel ⊢
  rw [hsel]

theorem putTask_owner_null {db : Db} (hwf : db.WF) {T : Row} (hT : T ∈ db.tasks) (body : Body)
    (ht : body.text = .null) :
    putTask db T.user_id T.id body = (db, .error 500 "Failed to update task") := by
  unfold putTask
  rw [selectByIdAndUser_of_mem hwf hT]
  simp only
  unfold updateTask
  rw [bindText_eq_textOf (ite_str_ne_undefined _ _),
    bindText_eq_textOf (ite_colVal_ne_undefined _ _),
    bindText_eq_textOf (ite_colVal_ne_undefined _ _),
    bindText_eq_textOf (ite_colVal_ne_undefined _ _),
    bindText_eq_textOf (ite_colVal_ne_undefined _ _),
    bindText_eq_textOf (ite_colVal_ne_undefined _ _),
    bindText_eq_textOf (ite_colVal_ne_undefined _ _)]
  have h1 : textOf (if body.text ≠ .undefined then body.text else .str T.text) = none := by
    rw [ht]
    rfl
  have h2 : db.tasks.any (fun r => decide (r.id = T.id) && decide (r.user_id = T.user_id))
      = true := by
    rw [List.any_eq_true]
    exact ⟨T, hT, by simp⟩
  simp only [h1, h2, if_true]

theorem deleteTask_owner {db : Db} (hwf : db.WF) {T : Row} (hT : T ∈ db.tasks) :
    deleteTask db T.user_id T.id =
      (⟨db.tasks.filter (fun r => decide (r.id ≠ T.id)), db.seq⟩,
        .message 200 "Task deleted successfully") := by
  unfold deleteTask
  rw [selectByIdAndUser_of_mem hwf hT]
  simp only [deleteWhere]
  congr 2
  apply List.filter_congr
  intro r hr
  by_cases hid : r.id = T.id
  · have := eq_of_mem_of_id_eq hwf.1 hr hT hid
    subst this
    simp
  · simp [hid]

/-! ## Preservation of the table's integrity -/

theorem updateTask_cases {db db1 : Db} {text : JsVal} {c : Int}
    {priority day month year formatted view : JsVal} {id u : Int}
    (h : updateTask db text c priority day month year formatted view id u = some db1) :
    db1 = db ∨ ∃ g : Row → Row, (∀ r, (g r).id = r.id) ∧ db1 = ⟨db.tasks.map g, db.seq⟩ := by
  unfold updateTask at h
  split at h
  · split at h
    · right
      refine ⟨_, ?_, (Option.some.inj h).symm⟩
      intro r
      by_cases hr : r.id = id ∧ r.user_id = u <;> simp [hr, setColumns]
    · split at h
      · cases h
      · left
        exact (Option.some.inj h).symm
  · cases h

theorem putTask_db_cases (db : Db) (userId id : Int) (body : Body) :
    (putTask db userId id body).1 = db ∨
    ∃ g : Row → Row, (∀ r, (g r).id = r.id) ∧
      (putTask db userId id body).1 = ⟨db.tasks.map g, db.seq⟩ := by
  unfold putTask
  split
  · left; rfl
  · split
    · left; rfl
    · rename_i db1 hupd
      have hdb1 := updateTask_cases hupd
      split <;> exact hdb1

theorem deleteTask_db_cases (db : Db) (userId id : Int) :
    (deleteTask db userId id).1 = db ∨
    ∃ p : Row → Bool, (deleteTask db userId id).1 = ⟨db.tasks.filter p, db.seq⟩ := by
  unfold deleteTask
  split
  · left; rfl
  · right
    exact ⟨_, rfl⟩

theorem postTask_db_cases (db : Db) (now : String) (userId : Int) (body : Body) :
    (postTask db now userId body).1 = db ∨
    ∃ row : Row, row.id = nextRowid db ∧
      (postTask db now userId body).1 = ⟨db.tasks ++ [row], nextRowid db⟩ := by
  rcases postTask_cases db now userId body with ⟨st, msg, h⟩ | ⟨s, _, _, h⟩
  · left; rw [h]
  · right
    exact ⟨newRow db now userId s body, rfl, h⟩

/-- What a request can do to the table: nothing, append a row under a fresh rowid,
    rewrite rows in place keeping their ids, or drop rows. -/
theorem handle_db_cases (db : Db) (q : Request) :
    (handle db q).1 = db ∨
    (∃ row : Row, row.id = nextRowid db ∧
      (handle db q).1 = ⟨db.tasks ++ [row], nextRowid db⟩) ∨
    (∃ g : Row → Row, (∀ r, (g r).id = r.id) ∧ (handle db q).1 = ⟨db.tasks.map g, db.seq⟩) ∨
    (∃ p : Row → Bool, (handle db q).1 = ⟨db.tasks.filter p, db.seq⟩) := by
  cases q with
  | list u => left; rfl
  | create now u body =>
    rcases postTask_db_cases db now u body with h | h
    · left; exact h
    · right; left; exact h
  | update u id body =>
    rcases putTask_db_cases db u id body with h | h
    · left; exact h
    · right; right; left; exact h
  | delete u id =>
    rcases deleteTask_db_cases db u id with h | h
    · left; exact h
    · right; right; right; exact h

theorem handle_WF {db : Db} (hwf : db.WF) (q : Request) : (handle db q).1.WF := by
  rcases handle_db_cases db q with h | ⟨row, hid, h⟩ | ⟨g, hg, h⟩ | ⟨p, h⟩
  · rw [h]; exact hwf
  · rw [h]
    refine ⟨?_, ?_⟩
    · show (db.tasks ++ [row]).Pairwise _
      rw [List.pairwise_append]
      refine ⟨hwf.1, List.pairwise_singleton _ _, ?_⟩
      intro a ha b hb
      rw [List.mem_singleton] at hb
      subst hb
      rw [hid]
      exact mem_lt_nextRowid ha
    · intro r hr
      show r.id ≤ nextRowid db
      rcases List.mem_append.mp hr with h1 | h1
      · exact le_of_lt (mem_lt_nextRowid h1)
      · rw [List.mem_singleton] at h1
        rw [h1, hid]
  · rw [h]
    refine ⟨?_, ?_⟩
    · show (db.tasks.map g).Pairwise _
      rw [List.pairwise_map]
      refine hwf.1.imp ?_
      intro a b hab
      rw [hg a, hg b]
      exact hab
    · intro r hr
      obtain ⟨r0, hr0, rfl⟩ := List.mem_map.mp hr
      rw [hg r0]
      exact hwf.2 r0 hr0
  · rw [h]
    refine ⟨?_, ?_⟩
    · exact hwf.1.sublist (List.filter_sublist _)
    · intro r hr
      exact hwf.2 r (List.mem_of_mem_filter hr)

theorem run_WF {db : Db} (hwf : db.WF) (qs : List Request) : (run db qs).WF := by
  induction qs generalizing db with
  | nil => exact hwf
  | cons q qs ih => exact ih (handle_WF hwf q)

theorem emptyDb_WF : emptyDb.WF := by
  decide

theorem handle_retired {i : Int} {db : Db} (h : Retired i db) (q : Request) :
    Retired i (handle db q).1 := by
  rcases handle_db_cases db q with e | ⟨row, hid, e⟩ | ⟨g, hg, e⟩ | ⟨p, e⟩
  · rw [e]; exact h
  · rw [e]
    have hlt := seq_lt_nextRowid db
    refine ⟨?_, ?_⟩
    · show i ≤ nextRowid db
      have := h.1
      omega
    · intro r hr
      rcases List.mem_append.mp hr with h1 | h1
      · exact h.2 r h1
      · rw [List.mem_singleton] at h1
        rw [h1, hid]
        have := h.1
        omega
  · rw [e]
    refine ⟨h.1, ?_⟩
    intro r hr
    obtain ⟨r0, hr0, rfl⟩ := List.mem_map.mp hr
    rw [hg r0]
    exact h.2 r0 hr0
  · rw [e]
    refine ⟨h.1, ?_⟩
    intro r hr
    exact h.2 r (List.mem_of_mem_filter hr)

theorem run_retired {i : Int} {db : Db} (h : Retired i db) (qs : List Request) :
    Retired i (run db qs) := by
  induction qs generalizing db with
  | nil => exact h
  | cons q qs ih => exact ih (handle_retired h q)

theorem handle_positive {db : Db} (h : db.PositiveIds) (q : Request) :
    (handle db q).1.PositiveIds := by
  rcases handle_db_cases db q with e | ⟨row, hid, e⟩ | ⟨g, hg, e⟩ | ⟨p, e⟩
  · rw [e]; exact h
  · rw [e]
    have hpos := nextRowid_pos h
    refine ⟨le_of_lt hpos, ?_⟩
    intro r hr
    rcases List.mem_append.mp hr with h1 | h1
    · exact h.2 r h1
    · rw [List.mem_singleton] at h1
      rw [h1, hid]
      exact hpos
  · rw [e]
    refine ⟨h.1, ?_⟩
    intro r hr
    obtain ⟨r0, hr0, rfl⟩ := List.mem_map.mp hr
    rw [hg r0]
    exact h.2 r0 hr0
  · rw [e]
    refine ⟨h.1, ?_⟩
    intro r hr
    exact h.2 r (List.mem_of_mem_filter hr)

theorem run_positive {db : Db} (h : db.PositiveIds) (qs : List Request) :
    (run db qs).PositiveIds := by
  induction qs generalizing db with
  | nil => exact h
  | cons q qs ih => exact ih (handle_positive h q)

theorem emptyDb_positive : emptyDb.PositiveIds :=
  ⟨le_refl _, fun _ hr => by cases hr⟩

/-- In every state the routes reach from the empty table, a valid create stores its row
    and answers 500 'Failed to create task'. -/
theorem reachable_create_answers_500 (qs : List Request) (now : String) (userId : Int)
    (body : Body) (s : String) (hs : body.text = .str s) (hne : jsTrim s ≠ "") :
    postTask (run emptyDb qs) now userId body =
      (⟨(run emptyDb qs).tasks ++ [newRow (run emptyDb qs) now userId s body],
          nextRowid (run emptyDb qs)⟩,
        .error 500 "Failed to create task") :=
  postTask_valid_answers_500 (run emptyDb qs) (run_positive emptyDb_positive qs) now userId
    body s hs hne

theorem textOf_colVal (x : Option String) : textOf (colVal x) = x := by
  cases x <;> rfl

theorem mem_selectForUser {db : Db} {u : Int} {r : Row} :
    r ∈ selectForUser db u ↔ r ∈ db.tasks ∧ r.user_id = u := by
  unfold selectForUser
  rw [(List.perm_insertionSort newerFirst _).mem_iff, List.mem_filter]
  simp

theorem getTasks_eq (db : Db) (u : Int) :
    getTasks db u = .tasks ((selectForUser db u).map formatTask) := by
  unfold getTasks
  rw [List.map_map]
  rfl

theorem putTask_updated (db : Db) (userId id : Int) (body : Body)
    (status : Nat) (msg : String) (t : ApiTask)
    (hok : (putTask db userId id body).2 = .task status msg t) :
    ∃ task ∈ (putTask db userId id body).1.tasks, task.id = id ∧ formatTask task = t := by
  unfold putTask at hok ⊢
  cases h1 : selectByIdAndUser db id userId with
  | none =>
    rw [h1] at hok
    cases hok
  | some existingTask =>
    rw [h1] at hok
    simp only at hok ⊢
    generalize updateTask db _ _ _ _ _ _ _ _ id userId = upd at hok ⊢
    cases upd with
    | none => cases hok
    | some db1 =>
      simp only at hok ⊢
      cases h3 : selectById db1 id with
      | none =>
        rw [h3] at hok
        cases hok
      | some task =>
        rw [h3] at hok
        injection hok with _ _ ht
        unfold selectById at h3
        have h4 := List.find?_some h3
        have h5 := List.mem_of_find?_eq_some h3
        simp only [decide_eq_true_eq] at h4
        exact ⟨task, h5, h4, ht⟩

/-! ## The order of the list -/

theorem run_creates (u : Int) (cs : List (String × Body)) (db : Db)
    (hvalid : ∀ c ∈ cs, ∃ s, c.2.text = .str s ∧ jsTrim s ≠ "") :
    ∃ rows : List Row,
      (run db (createRequests u cs)).tasks = db.tasks ++ rows ∧
      rows.map (fun r => r.created_at) = cs.map Prod.fst ∧
      (∀ r ∈ rows, r.user_id = u) ∧
      (∀ r ∈ rows, ∀ o ∈ db.tasks, o.id < r.id) := by
  induction cs generalizing db with
  | nil => exact ⟨[], by simp [createRequests, run], rfl, by simp, by simp⟩
  | cons c cs ih =>
    obtain ⟨s, hs, hne⟩ := hvalid c (List.mem_cons_self _ _)
    have hpost := postTask_valid_db db c.1 u c.2 s hs hne
    obtain ⟨rows, h1, h2, h3, hfresh⟩ :=
      ih ⟨db.tasks ++ [newRow db c.1 u s c.2], nextRowid db⟩
        (fun c1 hc1 => hvalid c1 (List.mem_cons_of_mem _ hc1))
    refine ⟨newRow db c.1 u s c.2 :: rows, ?_, ?_, ?_, ?_⟩
    · simp only [createRequests, List.map_cons, run, handle, hpost]
      simp only [createRequests] at h1
      rw [h1]
      simp
    · simp only [List.map_cons, h2]
      rfl
    · intro r hr
      rcases List.mem_cons.mp hr with rfl | hr1
      · rfl
      · exact h3 r hr1
    · intro r hr o ho
      rcases List.mem_cons.mp hr with rfl | hr1
      · exact mem_lt_nextRowid ho
      · exact hfresh r hr1 o (List.mem_append_left _ ho)

theorem sorted_filter_new (old rows : List Row)
    (hasc : rows.Pairwise (fun a b => a.created_at < b.created_at))
    (hdisj : ∀ r ∈ rows, r ∉ old) :
    ((old ++ rows).insertionSort newerFirst).filter (fun r => decide (r ∈ rows)) =
      rows.reverse := by
  have hperm : (((old ++ rows).insertionSort newerFirst).filter
      (fun r => decide (r ∈ rows))).Perm rows := by
    have h := (List.perm_insertionSort newerFirst (old ++ rows)).filter
      (fun r => decide (r ∈ rows))
    have h0 : old.filter (fun r => decide (r ∈ rows)) = [] := by
      rw [List.filter_eq_nil_iff]
      intro r hr hmem
      exact hdisj r (of_decide_eq_true hmem) hr
    have h1 : rows.filter (fun r => decide (r ∈ rows)) = rows := by
      rw [List.filter_eq_self]
      intro r hr
      exact decide_eq_true hr
    rw [List.filter_append, h0, h1, List.nil_append] at h
    exact h
  have hsorted : (((old ++ rows).insertionSort newerFirst).filter
      (fun r => decide (r ∈ rows))).Pairwise newerFirst :=
    List.Pairwise.sublist (List.filter_sublist _)
      (List.sorted_insertionSort newerFirst (old ++ rows))
  have hne : (((old ++ rows).insertionSort newerFirst).filter
      (fun r => decide (r ∈ rows))).Pairwise (fun a b => a.created_at ≠ b.created_at) :=
    (hperm.pairwise_iff (fun h => Ne.symm h)).mpr (hasc.imp (fun h => ne_of_lt h))
  have hstrict : (((old ++ rows).insertionSort newerFirst).filter
      (fun r => decide (r ∈ rows))).Pairwise (fun a b => b.created_at < a.created_at) :=
    (hsorted.and hne).imp
      (fun h => lt_of_le_of_ne (String.le_iff_toList_le.mpr h.1) (Ne.symm h.2))
  have hrev : rows.reverse.Pairwise (fun a b => b.created_at < a.created_at) :=
    List.pairwise_reverse.mpr hasc
  haveI : IsAntisymm Row (fun a b => b.created_at < a.created_at) :=
    ⟨fun _ _ h1 h2 => absurd h1 (lt_asymm h2)⟩
  exact List.eq_of_perm_of_sorted (hperm.trans (List.reverse_perm rows).symm) hstrict hrev

/-! ## The claims -/

/-- C1: a task owned by one user cannot be updated or deleted by another user: both
    requests answer 404 'Task not found' and leave the database as it was. -/
theorem C1_other_user_not_found (db : Db) (hwf : db.WF) (T : Row) (hT : T ∈ db.tasks)
    (B : Int) (hB : B ≠ T.user_id) (body : Body) :
    putTask db B T.id body = (db, .error 404 "Task not found") ∧
    deleteTask db B T.id = (db, .error 404 "Task not found") := by
  have hsel := selectByIdAndUser_other hwf hT hB
  constructor
  · unfold putTask
    rw [hsel]
  · unfold deleteTask
    rw [hsel]

/-- C3: a create whose text is empty or holds only whitespace answers 400 'Task text is
    required' and leaves the database as it was. -/
theorem C3_blank_text_rejected (db : Db) (now : String) (userId : Int) (body : Body)
    (s : String) (hs : body.text = .str s) (hblank : ∀ c ∈ s.data, isJsWhiteSpace c = true) :
    postTask db now userId body = (db, .error 400 "Task text is required") := by
  unfold postTask
  by_cases h : body.text.truthy = true
  · simp only [h, Bool.not_true, Bool.false_eq_true, if_false]
    rw [hs]
    simp only [JsVal.trim, jsTrim, trimChars_eq_nil hblank]
    rfl
  · simp [h]

theorem overwrites_textOf (v : JsVal) (old : Option String) :
    Overwrites v old (textOf (if v ≠ .undefined then v else colVal old)) := by
  cases v <;> simp [Overwrites, textOf, bindText, textOf_colVal]
  exact textOf_colVal old

/-- C2: a successful update by the owner replaces only that task's row, by a row with
    the same id, owner and creation time in which every updatable column is
    overwritten when the body supplies the property (also with `false` or the empty
    string) and kept when the body omits it. -/
theorem C2_update_merges (db : Db) (hwf : db.WF) (T : Row) (hT : T ∈ db.tasks) (body : Body)
    (db1 : Db) (status : Nat) (msg : String) (t : ApiTask)
    (hok : putTask db T.user_id T.id body = (db1, .task status msg t)) :
    ∃ T1 : Row,
      db1 = ⟨db.tasks.map (fun r => if r.id = T.id then T1 else r), db.seq⟩ ∧
      T1.id = T.id ∧ T1.user_id = T.user_id ∧ T1.created_at = T.created_at ∧
      OverwritesText body.text T.text T1.text ∧
      OverwritesFlag body.completed T.completed T1.completed ∧
      Overwrites body.priority T.priority T1.priority ∧
      Overwrites body.deadline.day T.deadline_day T1.deadline_day ∧
      Overwrites body.deadline.month T.deadline_month T1.deadline_month ∧
      Overwrites body.deadline.year T.deadline_year T1.deadline_year ∧
      Overwrites body.formattedDeadline T.formatted_deadline T1.formatted_deadline ∧
      Overwrites body.view T.view T1.view := by
  have key : ∃ t1 : String,
      textOf (if body.text ≠ .undefined then body.text else .str T.text) = some t1 ∧
      OverwritesText body.text T.text t1 := by
    cases hb : body.text with
    | null =>
      rw [putTask_owner_null hwf hT body hb] at hok
      cases hok
    | undefined => exact ⟨T.text, by simp [textOf, bindText], by simp [OverwritesText]⟩
    | bool b => exact ⟨if b then "1" else "0", by simp [textOf, bindText], by simp [OverwritesText]⟩
    | str s => exact ⟨s, by simp [textOf, bindText], by simp [OverwritesText]⟩
  obtain ⟨t1, ht1, hov⟩ := key
  rw [putTask_owner hwf hT body t1 ht1] at hok
  have hdb : db1 = ⟨db.tasks.map (fun r => if r.id = T.id then mergedRow T body t1 else r),
      db.seq⟩ := (congrArg Prod.fst hok).symm
  refine ⟨mergedRow T body t1, hdb, rfl, rfl, rfl, hov, ?_, overwrites_textOf _ _,
    overwrites_textOf _ _, overwrites_textOf _ _, overwrites_textOf _ _,
    overwrites_textOf _ _, overwrites_textOf _ _⟩
  show OverwritesFlag body.completed T.completed (mergedCompleted T body)
  unfold OverwritesFlag mergedCompleted
  cases body.completed <;> simp [JsVal.truthy]
  exact em _

/-- C4: the row a valid create stores carries the authenticated user's id, whatever the
    body holds (no property of the body reaches `user_id`): the table after the create
    is the table before it followed by one new row, owned by the caller. -/
theorem C4_created_task_owner (db : Db) (now : String) (userId : Int) (body : Body)
    (s : String) (hs : body.text = .str s) (hne : jsTrim s ≠ "") :
    ∃ row : Row, (postTask db now userId body).1.tasks = db.tasks ++ [row] ∧
      row.user_id = userId ∧ row.text = jsTrim s ∧ row ∉ db.tasks := by
  refine ⟨newRow db now userId s body, ?_, rfl, rfl, ?_⟩
  · rw [postTask_valid_db db now userId body s hs hne]
  · intro hmem
    have := mem_lt_nextRowid hmem
    simp [newRow] at this

/-- C6: for a user who owns no task, a create that supplies only a text that is not
    blank, followed by the list, gives exactly one task: the trimmed text, not
    completed, priority "none", view "inbox", deadline of three empty strings. -/
theorem C6_create_then_list (db : Db) (now : String) (userId : Int) (s : String)
    (hne : jsTrim s ≠ "") (hnone : ∀ r ∈ db.tasks, r.user_id ≠ userId) :
    ∃ t : ApiTask,
      getTasks (postTask db now userId (Body.ofText (.str s))).1 userId = .tasks [t] ∧
      t.text = .str (jsTrim s) ∧ t.completed = false ∧ t.priority = .str "none" ∧
      t.view = .str "inbox" ∧ t.deadline = ⟨.str "", .str "", .str ""⟩ := by
  rw [postTask_valid_db db now userId (Body.ofText (.str s)) s rfl hne, getTasks_eq]
  have hsel : selectForUser
      ⟨db.tasks ++ [newRow db now userId s (Body.ofText (.str s))], nextRowid db⟩ userId =
      [newRow db now userId s (Body.ofText (.str s))] := by
    unfold selectForUser
    rw [List.filter_append]
    have h0 : db.tasks.filter (fun r => decide (r.user_id = userId)) = [] := by
      rw [List.filter_eq_nil_iff]
      intro r hr
      simpa using hnone r hr
    rw [h0]
    simp [newRow]
  rw [hsel]
  exact ⟨_, rfl, rfl, rfl, rfl, rfl, rfl⟩

/-- C7: once the owner has deleted a task, no later list of the owner shows a task with
    that id, whatever requests come in between, and a second delete of the same id
    answers 404 'Task not found' and leaves the database as it was. -/
theorem C7_delete_is_final (db : Db) (hwf : db.WF) (T : Row) (hT : T ∈ db.tasks) :
    (deleteTask db T.user_id T.id).2 = .message 200 "Task deleted successfully" ∧
    (∀ (qs : List Request) (ts : List ApiTask),
      getTasks (run (deleteTask db T.user_id T.id).1 qs) T.user_id = .tasks ts →
      ∀ t ∈ ts, t.id ≠ T.id) ∧
    deleteTask (deleteTask db T.user_id T.id).1 T.user_id T.id =
      ((deleteTask db T.user_id T.id).1, .error 404 "Task not found") := by
  rw [deleteTask_owner hwf hT]
  have hret : Retired T.id ⟨db.tasks.filter (fun r => decide (r.id ≠ T.id)), db.seq⟩ := by
    refine ⟨hwf.2 T hT, ?_⟩
    intro r hr
    have := (List.mem_filter.mp hr).2
    simpa using this
  refine ⟨rfl, ?_, ?_⟩
  · intro qs ts hts t ht
    have hr := run_retired hret qs
    rw [getTasks_eq] at hts
    injection hts with hts
    subst hts
    obtain ⟨r, hr1, rfl⟩ := List.mem_map.mp ht
    exact hr.2 r (mem_selectForUser.mp hr1).1
  · unfold deleteTask
    rw [selectByIdAndUser_eq_none]
    intro r hr hid
    exact absurd hid (hret.2 r hr)

/-- C8: the text of a stored task can be blank: after a create with text "a", an update
    of that task by its owner with text "" stores the empty string. -/
theorem C8_update_stores_blank_text :
    (run emptyDb [.create "2024-01-01 00:00:00" 1 (Body.ofText (.str "a")),
      .update 1 1 (Body.ofText (.str ""))]).tasks =
    [⟨1, 1, "", 0, some "none", none, none, none, none, some "inbox",
      "2024-01-01 00:00:00"⟩] := by
  decide

theorem sameOrEmpty_colVal (x : Option String) : SameOrEmpty x ((colVal x).or (.str "")) := by
  cases x with
  | none => simp [SameOrEmpty, colVal, JsVal.or, JsVal.truthy]
  | some s =>
    by_cases h : s = "" <;> simp [SameOrEmpty, colVal, JsVal.or, JsVal.truthy, h]

theorem sameOrNull_colVal (x : Option String) : SameOrNull x (colVal x) := by
  cases x <;> simp [SameOrNull, colVal]

theorem isShapeOf_formatTask (r : Row) : IsShapeOf (formatTask r) r :=
  ⟨rfl, rfl, by simp [formatTask], sameOrNull_colVal _, sameOrEmpty_colVal _,
    sameOrEmpty_colVal _, sameOrEmpty_colVal _, sameOrNull_colVal _, sameOrNull_colVal _, rfl⟩

/-- The list and update parts of C9: every task object of a list or update response is
    the shape translation of a stored row: the list shows the translation of each row
    of the user and nothing else, an update shows the translation of the row of the
    new table that carries the requested id. -/
theorem list_and_update_responses_are_shape_translations (db : Db) :
    (∀ (u : Int) (ts : List ApiTask), getTasks db u = .tasks ts →
      (∀ t ∈ ts, ∃ r ∈ db.tasks, r.user_id = u ∧ IsShapeOf t r) ∧
      (∀ r ∈ db.tasks, r.user_id = u → ∃ t ∈ ts, IsShapeOf t r)) ∧
    (∀ (u id : Int) (body : Body) (status : Nat) (msg : String) (t : ApiTask),
      (putTask db u id body).2 = .task status msg t →
      ∃ r ∈ (putTask db u id body).1.tasks, r.id = id ∧ IsShapeOf t r) := by
  refine ⟨?_, ?_⟩
  · intro u ts hts
    rw [getTasks_eq] at hts
    injection hts with hts
    subst hts
    constructor
    · intro t ht
      obtain ⟨r, hr, rfl⟩ := List.mem_map.mp ht
      have := mem_selectForUser.mp hr
      exact ⟨r, this.1, this.2, isShapeOf_formatTask r⟩
    · intro r hr hu
      exact ⟨formatTask r, List.mem_map.mpr ⟨r, mem_selectForUser.mpr ⟨hr, hu⟩, rfl⟩,
        isShapeOf_formatTask r⟩
  · intro u id body status msg t hok
    obtain ⟨task, hmem, hid, hfmt⟩ := putTask_updated db u id body status msg t hok
    refine ⟨task, hmem, hid, ?_⟩
    rw [← hfmt]
    exact isShapeOf_formatTask task

/-- C9 fails for the create response: on the empty table a create with text "a" by
    user 1 stores row 1 and answers 500 'Failed to create task', with no task object
    for the stored row. -/
theorem C9_create_stores_row_and_answers_500 :
    postTask emptyDb "2024-01-01 00:00:00" 1 (Body.ofText (.str "a")) =
      (⟨[⟨1, 1, "a", 0, some "none", none, none, none, none, some "inbox",
          "2024-01-01 00:00:00"⟩], 1⟩,
        .error 500 "Failed to create task") := by
  decide

/-- C10 as stated fails: a valid create that supplies the empty string as priority and
    as view stores priority "none" and view "inbox", not the supplied strings. -/
theorem C10_empty_priority_and_view_replaced :
    (postTask emptyDb "2024-01-01 00:00:00" 1
      ⟨.str "a", .undefined, .str "", .undefined, .undefined, .str "", []⟩).1.tasks.map
      (fun r => (r.priority, r.view)) = [(some "none", some "inbox")] := by
  decide

/-- C10 amended: a valid create stores a supplied priority and a supplied view as given
    when they are non-empty strings, and stores the defaults "none" and "inbox" when
    the property is absent or is the empty string. -/
theorem C10_create_priority_and_view (db : Db) (now : String) (userId : Int) (body : Body)
    (s : String) (hs : body.text = .str s) (hne : jsTrim s ≠ "") :
    ∃ row : Row,
      (postTask db now userId body).1 = ⟨db.tasks ++ [row], nextRowid db⟩ ∧
      row.id = nextRowid db ∧
      (∀ p, body.priority = .str p → p ≠ "" → row.priority = some p) ∧
      (∀ v, body.view = .str v → v ≠ "" → row.view = some v) ∧
      (body.priority = .undefined ∨ body.priority = .str "" → row.priority = some "none") ∧
      (body.view = .undefined ∨ body.view = .str "" → row.view = some "inbox") := by
  refine ⟨newRow db now userId s body, postTask_valid_db db now userId body s hs hne, rfl,
    ?_, ?_, ?_, ?_⟩
  · intro p hp hp0
    simp [newRow, hp, JsVal.or, JsVal.truthy, hp0, textOf, bindText]
  · intro v hv hv0
    simp [newRow, hv, JsVal.or, JsVal.truthy, hv0, textOf, bindText]
  · rintro (h | h) <;> simp [newRow, h, JsVal.or, JsVal.truthy, textOf, bindText]
  · rintro (h | h) <;> simp [newRow, h, JsVal.or, JsVal.truthy, textOf, bindText]

/-- C5 as stated fails: two tasks created in sequence by one user within the same second
    (rows 1 and 2, in this order) are listed in creation order: the task created last
    (id 2) comes last, not first. -/
theorem C5_same_second_creates_listed_oldest_first :
    (run emptyDb [.create "2024-01-01 00:00:00" 1 (Body.ofText (.str "a")),
      .create "2024-01-01 00:00:00" 1 (Body.ofText (.str "b"))]).tasks =
    [⟨1, 1, "a", 0, some "none", none, none, none, none, some "inbox",
        "2024-01-01 00:00:00"⟩,
      ⟨2, 1, "b", 0, some "none", none, none, none, none, some "inbox",
        "2024-01-01 00:00:00"⟩] ∧
    getTasks (run emptyDb [.create "2024-01-01 00:00:00" 1 (Body.ofText (.str "a")),
      .create "2024-01-01 00:00:00" 1 (Body.ofText (.str "b"))]) 1 =
    .tasks [
      ⟨1, .str "a", false, .str "none", ⟨.str "", .str "", .str ""⟩, .null, .str "inbox",
        .str "2024-01-01 00:00:00"⟩,
      ⟨2, .str "b", false, .str "none", ⟨.str "", .str "", .str ""⟩, .null, .str "inbox",
        .str "2024-01-01 00:00:00"⟩] := by
  decide

/-- C5 amended: the list shows exactly the rows of the user, ordered by `created_at`
    descending; and after valid creates issued in sequence by one user with strictly
    increasing creation times, the rows they stored (one for each create, in creation
    order at the end of the table) are listed in reverse creation order (the task
    created last comes first). -/
theorem C5_list_newest_first (db : Db) (u : Int) :
    (∃ rows : List Row, getTasks db u = .tasks (rows.map formatTask) ∧
      rows.Perm (db.tasks.filter (fun r => decide (r.user_id = u))) ∧
      rows.Pairwise (fun a b => b.created_at ≤ a.created_at)) ∧
    (∀ cs : List (String × Body),
      (∀ c ∈ cs, ∃ s, c.2.text = .str s ∧ jsTrim s ≠ "") →
      (cs.map Prod.fst).Pairwise (fun a b => a < b) →
      ∃ (created : List Row) (listed : List ApiTask),
        (run db (createRequests u cs)).tasks = db.tasks ++ created ∧
        created.map (fun r => r.created_at) = cs.map Prod.fst ∧
        (∀ r ∈ created, r.user_id = u) ∧
        getTasks (run db (createRequests u cs)) u = .tasks listed ∧
        listed.filter (fun t => decide (t ∈ created.map formatTask)) =
          (created.map formatTask).reverse) := by
  constructor
  · refine ⟨selectForUser db u, getTasks_eq db u, List.perm_insertionSort _ _, ?_⟩
    have hs := List.sorted_insertionSort newerFirst
      (db.tasks.filter (fun r => decide (r.user_id = u)))
    refine List.Pairwise.imp ?_ hs
    intro a b hab
    exact String.le_iff_toList_le.mpr hab
  · intro cs hvalid hinc
    obtain ⟨rows, h1, h2, h3, hfresh⟩ := run_creates u cs db hvalid
    refine ⟨rows, _, h1, h2, h3, getTasks_eq _ u, ?_⟩
    have hsel : selectForUser (run db (createRequests u cs)) u =
        (db.tasks.filter (fun r => decide (r.user_id = u)) ++ rows).insertionSort
          newerFirst := by
      unfold selectForUser
      rw [h1, List.filter_append]
      have h5 : rows.filter (fun r => decide (r.user_id = u)) = rows := by
        rw [List.filter_eq_self]
        intro r hr
        simpa using h3 r hr
      rw [h5]
    have hdisj : ∀ r ∈ rows, r ∉ db.tasks.filter (fun r => decide (r.user_id = u)) := by
      intro r hr hmem
      have := hfresh r hr r (List.mem_of_mem_filter hmem)
      omega
    rw [hsel, List.filter_map, ← List.map_reverse]
    congr 1
    rw [← sorted_filter_new _ rows (by rw [← h2, List.pairwise_map] at hinc; exact hinc) hdisj]
    apply List.filter_congr
    intro r hr
    have hr0 := (List.perm_insertionSort newerFirst _).mem_iff.mp hr
    by_cases hin : r ∈ rows
    · have : formatTask r ∈ rows.map formatTask := List.mem_map.mpr ⟨r, hin, rfl⟩
      show decide (formatTask r ∈ rows.map formatTask) = decide (r ∈ rows)
      rw [decide_eq_true this, decide_eq_true hin]
    · have : formatTask r ∉ rows.map formatTask := by
        intro hmem
        obtain ⟨r1, hr1, heq⟩ := List.mem_map.mp hmem
        have hid : r1.id = r.id := congrArg ApiTask.id heq
        rcases List.mem_append.mp hr0 with hold | hnew
        · have := hfresh r1 hr1 r (List.mem_of_mem_filter hold)
          omega
        · exact hin hnew
      show decide (formatTask r ∈ rows.map formatTask) = decide (r ∈ rows)
      rw [decide_eq_false this, decide_eq_false hin]

/-! ## Concrete instances -/

/-- C1 at `sampleDb`: user 2 cannot update or delete the task of user 1. -/
theorem C1_other_user_not_found_witness :
    putTask sampleDb 2 sampleRow.id sampleUpdate = (sampleDb, .error 404 "Task not found") ∧
    deleteTask sampleDb 2 sampleRow.id = (sampleDb, .error 404 "Task not found") :=
  C1_other_user_not_found sampleDb (by decide) sampleRow (by decide) 2 (by decide) sampleUpdate

/-- C2 at `sampleDb`: the owner's update with `sampleUpdate` succeeds and merges. -/
theorem C2_update_merges_witness :
    ∃ T1 : Row,
      (putTask sampleDb 1 1 sampleUpdate).1 =
        ⟨sampleDb.tasks.map (fun r => if r.id = sampleRow.id then T1 else r), sampleDb.seq⟩ ∧
      T1.id = sampleRow.id ∧ T1.user_id = sampleRow.user_id ∧
      T1.created_at = sampleRow.created_at ∧
      OverwritesText sampleUpdate.text sampleRow.text T1.text ∧
      OverwritesFlag sampleUpdate.completed sampleRow.completed T1.completed ∧
      Overwrites sampleUpdate.priority sampleRow.priority T1.priority ∧
      Overwrites sampleUpdate.deadline.day sampleRow.deadline_day T1.deadline_day ∧
      Overwrites sampleUpdate.deadline.month sampleRow.deadline_month T1.deadline_month ∧
      Overwrites sampleUpdate.deadline.year sampleRow.deadline_year T1.deadline_year ∧
      Overwrites sampleUpdate.formattedDeadline sampleRow.formatted_deadline
        T1.formatted_deadline ∧
      Overwrites sampleUpdate.view sampleRow.view T1.view :=
  C2_update_merges sampleDb (by decide) sampleRow (by decide) sampleUpdate
    (putTask sampleDb 1 1 sampleUpdate).1 200 "Task updated successfully"
    (formatTask ⟨1, 1, "Buy milk", 0, some "", some "", some "12", some "2024", some "24 Dec",
      some "today", "2024-01-01 00:00:00"⟩)
    (by decide)

/-- C3 at `sampleDb`: a create whose text is three spaces is rejected. -/
theorem C3_blank_text_rejected_witness :
    postTask sampleDb "2024-01-02 00:00:00" 1 (Body.ofText (.str "   ")) =
      (sampleDb, .error 400 "Task text is required") :=
  C3_blank_text_rejected sampleDb "2024-01-02 00:00:00" 1 (Body.ofText (.str "   ")) "   "
    rfl (by decide)

/-- C4 at `sampleDb`: user 1 creates with a body that names user 2; the row belongs to
    user 1. -/
theorem C4_created_task_owner_witness :
    ∃ row : Row,
      (postTask sampleDb "2024-01-02 00:00:00" 1 sampleCreate).1.tasks =
        sampleDb.tasks ++ [row] ∧
      row.user_id = 1 ∧ row.text = jsTrim " Pay rent " ∧ row ∉ sampleDb.tasks :=
  C4_created_task_owner sampleDb "2024-01-02 00:00:00" 1 sampleCreate " Pay rent "
    rfl (by decide)

/-- C5 amended, at `sampleDb`: two creates of user 1 one second apart are listed
    newest first. -/
theorem C5_list_newest_first_witness :
    ∃ (created : List Row) (listed : List ApiTask),
      (run sampleDb (createRequests 1
        [("2024-01-02 00:00:00", Body.ofText (.str "a")),
          ("2024-01-02 00:00:01", Body.ofText (.str "b"))])).tasks =
        sampleDb.tasks ++ created ∧
      created.map (fun r => r.created_at) =
        [("2024-01-02 00:00:00", Body.ofText (.str "a")),
          ("2024-01-02 00:00:01", Body.ofText (.str "b"))].map Prod.fst ∧
      (∀ r ∈ created, r.user_id = 1) ∧
      getTasks (run sampleDb (createRequests 1
        [("2024-01-02 00:00:00", Body.ofText (.str "a")),
          ("2024-01-02 00:00:01", Body.ofText (.str "b"))])) 1 = .tasks listed ∧
      listed.filter (fun t => decide (t ∈ created.map formatTask)) =
        (created.map formatTask).reverse :=
  (C5_list_newest_first sampleDb 1).2
    [("2024-01-02 00:00:00", Body.ofText (.str "a")),
      ("2024-01-02 00:00:01", Body.ofText (.str "b"))]
    (by
      intro c hc
      simp only [List.mem_cons, List.mem_singleton, List.not_mem_nil, or_false] at hc
      rcases hc with rfl | rfl
      · exact ⟨"a", rfl, by decide⟩
      · exact ⟨"b", rfl, by decide⟩)
    (by
      simp only [List.map_cons, List.map_nil, List.pairwise_cons, List.mem_singleton,
        forall_eq, List.not_mem_nil, false_implies, implies_true, List.Pairwise.nil, and_true]
      exact String.lt_iff_toList_lt.mpr (by decide))

/-- C6 at the empty table with the text "Buy milk". -/
theorem C6_create_then_list_witness :
    ∃ t : ApiTask,
      getTasks (postTask emptyDb "2024-01-01 00:00:00" 1 (Body.ofText (.str "Buy milk"))).1 1
        = .tasks [t] ∧
      t.text = .str (jsTrim "Buy milk") ∧ t.completed = false ∧ t.priority = .str "none" ∧
      t.view = .str "inbox" ∧ t.deadline = ⟨.str "", .str "", .str ""⟩ :=
  C6_create_then_list emptyDb "2024-01-01 00:00:00" 1 "Buy milk" (by decide) (by decide)

/-- C7 at `sampleDb`: user 1 deletes `sampleRow`. -/
theorem C7_delete_is_final_witness :
    (deleteTask sampleDb sampleRow.user_id sampleRow.id).2 =
      .message 200 "Task deleted successfully" ∧
    (∀ (qs : List Request) (ts : List ApiTask),
      getTasks (run (deleteTask sampleDb sampleRow.user_id sampleRow.id).1 qs)
        sampleRow.user_id = .tasks ts →
      ∀ t ∈ ts, t.id ≠ sampleRow.id) ∧
    deleteTask (deleteTask sampleDb sampleRow.user_id sampleRow.id).1
        sampleRow.user_id sampleRow.id =
      ((deleteTask sampleDb sampleRow.user_id sampleRow.id).1,
        .error 404 "Task not found") :=
  C7_delete_is_final sampleDb (by decide) sampleRow (by decide)

/-- C10 amended, at `sampleDb`: priority "high" and view "today" are stored as given. -/
theorem C10_create_priority_and_view_witness :
    ∃ row : Row,
      (postTask sampleDb "2024-01-02 00:00:00" 1 sampleCreate).1 =
        ⟨sampleDb.tasks ++ [row], nextRowid sampleDb⟩ ∧
      row.id = nextRowid sampleDb ∧
      (∀ p, sampleCreate.priority = .str p → p ≠ "" → row.priority = some p) ∧
      (∀ v, sampleCreate.view = .str v → v ≠ "" → row.view = some v) ∧
      (sampleCreate.priority = .undefined ∨ sampleCreate.priority = .str "" →
        row.priority = some "none") ∧
      (sampleCreate.view = .undefined ∨ sampleCreate.view = .str "" →
        row.view = some "inbox") :=
  C10_create_priority_and_view sampleDb "2024-01-02 00:00:00" 1 sampleCreate " Pay rent "
    rfl (by decide)

end TaskStore
